import Mathlib

/-!
Verification of the broker/jwt specification of the `micro` toolkit.

The repository's broker interface and its in-process (memory) backend are
specified in spec.md §2–§8; the sources present here are the memory broker's
test, the `jwt` auth package and the server options.  The broker
implementation itself (package `broker` and `broker/memory`) is not among
the sources, so its data model and operations are modelled from the spec,
each definition saying so in its doc comment.  The `jwt` package
(`Claims.ContainScopes`, `ParseFromMetadata`) is embedded from its Go
source directly.
-/

namespace Micro

/-! ## Broker data model (modelled from the spec) -/

/-- Modelled from the spec: `broker.Message` (spec §3) — immutable envelope of
header key/value pairs (`map[string]string`) and an opaque byte body.  The
header map is modelled as an association list, the body as a list of bytes. -/
structure Message where
  header : List (String × String)
  body : List Nat
deriving DecidableEq, Repr

/-- Modelled from the spec: `broker.Event` (spec §3) — the topic a message
arrived on together with the message.  (The optional delivery-error slot a
handler may set is not needed by any claim and is omitted.) -/
structure Event where
  topic : String
  message : Message
deriving DecidableEq, Repr

/-- Subscription identities: each registration receives a fresh numeric id. -/
abbrev SubId := Nat

/-- Modelled from the spec: a `Subscription` (spec §3) identifies
(topic, handler, unique identity); the handler is referenced through the
subscription's id (see `publish`, which takes the handlers' outcomes as a
function of the id). -/
structure Subscription where
  id : SubId
  topic : String
deriving DecidableEq, Repr

/-- Modelled from the spec: the broker-level error kinds of spec §7. -/
inductive BrokerError where
  | invalidArgument
  | brokerClosed
deriving DecidableEq, Repr

/-- Modelled from the spec: the broker's state (spec §3) — a lifecycle flag
(`open`/`closed`), the registry as a list of live subscriptions in
registration order (spec §3 recommends a deterministic order), and a counter
supplying fresh subscription identities. -/
structure BrokerState where
  closed : Bool
  nextId : Nat
  registry : List Subscription
deriving DecidableEq, Repr

/-- Modelled from the spec: `memory.New()` — a fresh open broker with an
empty registry. -/
def newBroker : BrokerState :=
  { closed := false, nextId := 0, registry := [] }

/-- Well-formedness of a broker state: subscription identities are distinct
and every live identity is below the fresh-id counter. -/
def BrokerState.wf (st : BrokerState) : Prop :=
  (st.registry.map Subscription.id).Nodup ∧
    ∀ s ∈ st.registry, s.id < st.nextId

/-- Modelled from the spec: the point-in-time snapshot of the subscriptions
registered for a topic, taken at the start of `Publish` (spec §4.2 step 2,
glossary "Snapshot"). -/
def snapshot (st : BrokerState) (topic : String) : List Subscription :=
  st.registry.filter (fun s => s.topic == topic)

/-- Modelled from the spec: `Broker.Subscribe(topic, handler)` (spec §4.3, §7).
Fails with `BrokerClosed` on a closed broker (spec §4.3); fails with
`InvalidArgument` on an empty topic or a nil handler (spec §7, `handler`
is `none` for Go's nil).  Otherwise inserts a new subscription with a fresh
identity at the end of the registry and returns its handle. -/
def subscribe (st : BrokerState) (topic : String) (handler : Option Unit) :
    Except BrokerError (Subscription × BrokerState) :=
  if st.closed then .error .brokerClosed
  else if topic = "" ∨ handler = none then .error .invalidArgument
  else
    let sub : Subscription := { id := st.nextId, topic := topic }
    .ok (sub, { closed := st.closed, nextId := st.nextId + 1,
                registry := st.registry ++ [sub] })

/-- Modelled from the spec: the dispatch phase of `Publish` (spec §4.2
steps 3–4): for each snapshot member, construct an Event
(Topic = topic, Message = message) and invoke its handler synchronously, in
order.  `hres` gives each handler's outcome (`true` = success); the returned
log records, per invocation, the subscription id, the event it received and
its handler's outcome.  Per spec §4.2 step 3 a handler failure never prevents
the remaining invocations. -/
def dispatch (hres : SubId → Bool) (topic : String) (m : Message)
    (snap : List Subscription) : List (SubId × Event × Bool) :=
  snap.map (fun s => (s.id, { topic := topic, message := m }, hres s.id))

/-- Modelled from the spec: `Broker.Publish(topic, message)` (spec §4.2, §7).
Step 1: a closed broker fails with `BrokerClosed` and no dispatch occurs.
A nil message (`none`) or empty topic fails with `InvalidArgument` (spec §7).
Otherwise the snapshot is taken and dispatched; per-subscriber handler
failures are never reflected in the result (spec §7), which on success
carries the invocation log.  The registry is unchanged by a publish. -/
def publish (hres : SubId → Bool) (st : BrokerState) (topic : String)
    (msg : Option Message) : Except BrokerError (List (SubId × Event × Bool)) :=
  if st.closed then .error .brokerClosed
  else
    match msg with
    | none => .error .invalidArgument
    | some m =>
      if topic = "" then .error .invalidArgument
      else .ok (dispatch hres topic m (snapshot st topic))

/-- Modelled from the spec: `Subscription.Unsubscribe()` (spec §4.4) —
removes the subscription from the registry and reports success; calling it
again after removal is a no-op returning success, not an error.  The first
component is the returned Go error (always nil). -/
def unsubscribe (st : BrokerState) (subId : SubId) :
    Option BrokerError × BrokerState :=
  (none, { st with registry := st.registry.filter (fun s => s.id != subId) })

/-- Modelled from the spec: `Broker.Close()` (spec §4.5) — transitions the
broker to `closed` (idempotent, always succeeds); existing subscriptions are
implicitly invalidated, the registry itself is left in place. -/
def close (st : BrokerState) : Option BrokerError × BrokerState :=
  (none, { st with closed := true })

/-- The state-mutating broker operations, for reasoning about what later
calls can do after a given point (publish never mutates the state). -/
inductive Op where
  | subscribe (topic : String) (handler : Option Unit)
  | unsubscribe (subId : SubId)
  | close
deriving DecidableEq, Repr

/-- The state after one broker operation (a failed subscribe leaves the
state unchanged). -/
def applyOp (st : BrokerState) : Op → BrokerState
  | .subscribe topic h =>
    match subscribe st topic h with
    | .ok (_, st') => st'
    | .error _ => st
  | .unsubscribe i => (unsubscribe st i).2
  | .close => (close st).2

/-- The state after a sequence of broker operations. -/
def applyOps (st : BrokerState) : List Op → BrokerState
  | [] => st
  | op :: ops => applyOps (applyOp st op) ops

/-! ## jwt package (embedded from `auth/jwt/jwt.go` in the sources) -/

/-- Go's `strings.Split(s, sep)` for a one-character separator, over the
characters of the string: splits around each instance of the separator.
`strings.Split` never returns an empty slice — on an empty input it returns
a one-element slice holding the empty string. -/
def splitOnSep (sep : Char) : List Char → List (List Char)
  | [] => [[]]
  | c :: cs =>
    let rest := splitOnSep sep cs
    if c = sep then [] :: rest
    else
      match rest with
      | [] => [[c]]
      | p :: ps => (c :: p) :: ps

/-- `strings.Split(s, sep)` on Lean strings (single-character separator, the
only form the `jwt` package uses: `strings.Split(c.Scope, " ")`). -/
def stringsSplit (s : String) (sep : Char) : List String :=
  (splitOnSep sep s.data).map (fun cs => { data := cs })

/-- `jwt.Claims` from the source: the claims provided by the JWT (the
embedded library type `jwt.StandardClaims` is external and not needed by any
claim here). -/
structure Claims where
  scope : String
  userID : String
  clientID : String
  tokenType : String
  avatarURL : String
  fullName : String
  admin : Bool
deriving DecidableEq, Repr

/-- `Claims.ContainScopes` from the source:
`currentScopes := strings.Split(c.Scope, " ")`; if that slice is empty the
function returns false; otherwise every requested scope must match some
element of `currentScopes`, else false; finally true.  The variadic
`scopes ...string` parameter is a list. -/
def Claims.containScopes (c : Claims) (scopes : List String) : Bool :=
  let currentScopes := stringsSplit c.scope ' '
  if currentScopes.length == 0 then false
  else scopes.all (fun scope => currentScopes.any (fun s => scope == s))

/-- The error values of the `jwt` package (`errors.New` sentinels), plus the
claim-validation errors `Claims.Valid()` can surface through `Parse`. -/
inductive AuthError where
  | metadataMissing
  | authorizationMissing
  | multipleAuthFound
  | invalidToken
  | claimsInvalid (code : Nat)
deriving DecidableEq, Repr

/-- What `jwt.Parse(t, s, c)` can return: nil on success, `errInvalidToken`
when parsing/verification fails, or the error of `c.Valid()`.  It never
returns any of the metadata-lookup sentinels. -/
inductive ParseResult where
  | ok
  | invalidToken
  | claimsInvalid (code : Nat)
deriving DecidableEq, Repr

/-- The Go error value a `ParseResult` stands for (`none` = nil error). -/
def ParseResult.toError : ParseResult → Option AuthError
  | .ok => none
  | .invalidToken => some .invalidToken
  | .claimsInvalid n => some (.claimsInvalid n)

/-- gRPC incoming metadata: a map from keys to slices of strings, modelled
as an association list (`metadata.MD`). -/
structure Metadata where
  entries : List (String × List String)
deriving DecidableEq, Repr

/-- Go map lookup `md[key]`: `none` when the key is absent. -/
def Metadata.lookup (md : Metadata) (key : String) : Option (List String) :=
  (md.entries.find? (fun e => e.1 == key)).map (fun e => e.2)

/-- A request context, as far as `ParseFromMetadata` reads it:
`metadata.FromIncomingContext(ctx)` either yields metadata or fails. -/
structure Context where
  incomingMetadata : Option Metadata
deriving DecidableEq, Repr

/-- `ParseFromMetadata` from the source.  `parseTok` stands for
`Parse(slice[0], secret, c)`, abstracted over the secret and claims it
closes over; the lookup key is the `authorizationMd` constant
`"authorization"`.  Mirrors the source's tests in order: no incoming
metadata → `errMetadataMissing`; key absent or zero entries →
`errAuthorizationMissing`; more than one entry → `errMultipleAuthFound`;
otherwise the result of `Parse` on the single entry. -/
def ParseFromMetadata (parseTok : String → ParseResult) (ctx : Context) :
    Option AuthError :=
  match ctx.incomingMetadata with
  | none => some .metadataMissing
  | some md =>
    match md.lookup "authorization" with
    | none => some .authorizationMissing
    | some slice =>
      if slice.length = 0 then some .authorizationMissing
      else if slice.length > 1 then some .multipleAuthFound
      else (parseTok (slice.headD "")).toError

/-! ## Theorems: jwt package -/

/-- `strings.Split` never yields an empty slice: `splitOnSep` always returns
at least one (possibly empty) part. -/
theorem splitOnSep_ne_nil (sep : Char) (l : List Char) :
    splitOnSep sep l ≠ [] := by
  induction l with
  | nil => simp [splitOnSep]
  | cons c cs ih =>
    simp only [splitOnSep]
    split
    · simp
    · split
      · simp
      · simp

/-- C9: for every `Claims` value `c`, `c.ContainScopes()` with zero scope
arguments returns `true`, even when `c.Scope` is the empty string: the
per-scope loop is vacuous and the `len(currentScopes) == 0` guard can never
fire because `strings.Split` always yields at least one element. -/
theorem claim_C9 (c : Claims) : c.containScopes [] = true := by
  have h := splitOnSep_ne_nil ' ' c.scope.data
  unfold Claims.containScopes stringsSplit
  simp [List.length_eq_zero, h]

/-- C10: `ParseFromMetadata` returns `errMultipleAuthFound` exactly when the
incoming metadata is present and holds two or more entries under the
`"authorization"` key — independent of the token parser, so no token is
parsed; with metadata present but zero authorization entries it returns
`errAuthorizationMissing`, and with no incoming metadata it returns
`errMetadataMissing`. -/
theorem claim_C10 (parseTok : String → ParseResult) (ctx : Context) :
    (ParseFromMetadata parseTok ctx = some .multipleAuthFound ↔
       ∃ md, ctx.incomingMetadata = some md ∧
         2 ≤ ((md.lookup "authorization").getD []).length) ∧
    (∀ md, ctx.incomingMetadata = some md →
       ((md.lookup "authorization").getD []).length = 0 →
       ParseFromMetadata parseTok ctx = some .authorizationMissing) ∧
    (ctx.incomingMetadata = none →
       ParseFromMetadata parseTok ctx = some .metadataMissing) := by
  cases hctx : ctx.incomingMetadata with
  | none =>
    refine ⟨?_, ?_, fun _ => by simp [ParseFromMetadata, hctx]⟩
    · simp [ParseFromMetadata, hctx]
    · intro md hmd
      simp [hctx] at hmd
  | some md =>
    cases hmd : md.lookup "authorization" with
    | none =>
      refine ⟨?_, ?_, by simp [hctx]⟩
      · simp [ParseFromMetadata, hctx, hmd]
      · intro md' hmd' _
        injection hmd' with hmd'
        subst hmd'
        simp [ParseFromMetadata, hctx, hmd]
    | some slice =>
      by_cases h0 : slice.length = 0
      · refine ⟨?_, ?_, by simp [hctx]⟩
        · simp [ParseFromMetadata, hctx, hmd, h0]
        · intro md' hmd' _
          injection hmd' with hmd'
          subst hmd'
          simp [ParseFromMetadata, hctx, hmd, h0]
      · by_cases h1 : slice.length > 1
        · refine ⟨?_, ?_, by simp [hctx]⟩
          · constructor
            · intro _
              exact ⟨md, rfl, by simp [hmd]; omega⟩
            · intro _
              simp [ParseFromMetadata, hctx, hmd, h0, h1]
          · intro md' hmd' hlen
            injection hmd' with hmd'
            subst hmd'
            rw [hmd] at hlen
            simp only [Option.getD_some] at hlen
            exact absurd hlen h0
        · refine ⟨?_, ?_, by simp [hctx]⟩
          · have hres : ParseFromMetadata parseTok ctx =
                (parseTok (slice.headD "")).toError := by
              simp [ParseFromMetadata, hctx, hmd, h0, h1]
            rw [hres]
            constructor
            · intro habs
              cases hpt : parseTok (slice.headD "") <;>
                rw [hpt] at habs <;> simp [ParseResult.toError] at habs
            · rintro ⟨md', hmd', hlen⟩
              injection hmd' with hmd'
              subst hmd'
              rw [hmd] at hlen
              simp at hlen
              omega
          · intro md' hmd' hlen
            injection hmd' with hmd'
            subst hmd'
            rw [hmd] at hlen
            simp only [Option.getD_some] at hlen
            exact absurd hlen h0

/-! ## Theorems: broker -/

/-- Inversion of a successful subscribe: the broker was open, the topic
non-empty, the returned handle carries the fresh identity, and the new state
appends the subscription to the registry. -/
theorem subscribe_ok {st : BrokerState} {T : String} {hd : Option Unit}
    {sub : Subscription} {st' : BrokerState}
    (hs : subscribe st T hd = .ok (sub, st')) :
    st.closed = false ∧ T ≠ "" ∧
      sub = { id := st.nextId, topic := T } ∧
      st' = { closed := st.closed, nextId := st.nextId + 1,
              registry := st.registry ++ [sub] } := by
  unfold subscribe at hs
  cases hcl : st.closed with
  | true => rw [hcl] at hs; simp at hs
  | false =>
    rw [hcl] at hs
    simp only [Bool.false_eq_true, if_false] at hs
    by_cases harg : T = "" ∨ hd = none
    · rw [if_pos harg] at hs; simp at hs
    · rw [if_neg harg] at hs
      push_neg at harg
      simp only [Except.ok.injEq, Prod.mk.injEq] at hs
      exact ⟨rfl, harg.1, hs.1.symm, by rw [← hs.2, ← hs.1]⟩

/-- A closed broker stays closed under any further operation: subscribe
fails and leaves the state alone, unsubscribe does not touch the lifecycle
flag, and close is idempotent. -/
theorem closed_applyOp (st : BrokerState) (op : Op) (h : st.closed = true) :
    (applyOp st op).closed = true := by
  cases op with
  | subscribe T hd => simp [applyOp, subscribe, h]
  | unsubscribe i => simpa [applyOp, unsubscribe] using h
  | close => simp [applyOp, close]

/-- A closed broker stays closed under any sequence of further operations. -/
theorem closed_applyOps (st : BrokerState) (ops : List Op)
    (h : st.closed = true) : (applyOps st ops).closed = true := by
  induction ops generalizing st with
  | nil => exact h
  | cons op ops ih => exact ih _ (closed_applyOp st op h)

/-- C3: after `Close()` returns, every subsequent `Publish` and every
subsequent `Subscribe` — no matter what other operations happen in
between — fails with `BrokerClosed`; the failed publish carries no
invocation log, so no dispatch to any handler occurs. -/
theorem claim_C3 (st : BrokerState) (ops : List Op) (T : String)
    (m : Option Message) (hd : Option Unit) (hres : SubId → Bool) :
    publish hres (applyOps (close st).2 ops) T m = .error .brokerClosed ∧
      subscribe (applyOps (close st).2 ops) T hd = .error .brokerClosed := by
  have hc : (applyOps (close st).2 ops).closed = true :=
    closed_applyOps _ _ (by simp [close])
  constructor
  · unfold publish; rw [hc]; simp
  · unfold subscribe; rw [hc]; simp

/-- C5: `Unsubscribe` is idempotent — the first call removes the
subscription and returns success (nil error), and a second call on the
resulting state returns success again and leaves the registry (indeed the
whole state) unchanged. -/
theorem claim_C5 (st : BrokerState) (i : SubId) :
    (unsubscribe st i).1 = none ∧
      (unsubscribe (unsubscribe st i).2 i).1 = none ∧
      (unsubscribe (unsubscribe st i).2 i).2 = (unsubscribe st i).2 := by
  refine ⟨rfl, rfl, ?_⟩
  simp [unsubscribe, List.filter_filter]

/-- C6: publishing to a topic with zero registered subscribers on an open
broker succeeds (nil error) and invokes no handler anywhere — the
invocation log is empty. -/
theorem claim_C6 (st : BrokerState) (T : String) (m : Message)
    (hres : SubId → Bool) (hopen : st.closed = false) (hT : T ≠ "")
    (hempty : snapshot st T = []) :
    publish hres st T (some m) = .ok [] := by
  unfold publish
  rw [hopen, hempty]
  simp [hT, dispatch]

/-- Witness for C6 at a concrete input: the fresh broker is open, the topic
`"unused"` is non-empty and has no subscribers, and the publish succeeds
with an empty log. -/
theorem claim_C6_witness :
    publish (fun _ => true) newBroker "unused"
        (some { header := [], body := [] }) = .ok [] :=
  claim_C6 newBroker "unused" { header := [], body := [] } (fun _ => true)
    rfl (by decide) rfl

/-- C7: on an open broker, `Publish` with an empty topic or a nil message
fails with `InvalidArgument` (the error result carries no invocation log,
so nothing is dispatched), and `Subscribe` with an empty topic or a nil
handler fails with `InvalidArgument` (the error result carries no new
state, so nothing is registered). -/
theorem claim_C7 (st : BrokerState) (T : String) (m : Message)
    (hd : Option Unit) (hres : SubId → Bool) (hopen : st.closed = false) :
    publish hres st "" (some m) = .error .invalidArgument ∧
      publish hres st T none = .error .invalidArgument ∧
      subscribe st "" hd = .error .invalidArgument ∧
      subscribe st T none = .error .invalidArgument := by
  refine ⟨?_, ?_, ?_, ?_⟩
  · unfold publish; rw [hopen]; simp
  · unfold publish; rw [hopen]; simp
  · unfold subscribe; rw [hopen]; simp
  · unfold subscribe; rw [hopen]; simp

/-- Witness for C7 at a concrete input: on the fresh (open) broker, all four
invalid calls fail with `InvalidArgument`. -/
theorem claim_C7_witness :
    publish (fun _ => true) newBroker ""
        (some { header := [], body := [] }) = .error .invalidArgument ∧
      publish (fun _ => true) newBroker "t" none = .error .invalidArgument ∧
      subscribe newBroker "" (some ()) = .error .invalidArgument ∧
      subscribe newBroker "t" none = .error .invalidArgument :=
  claim_C7 newBroker "t" { header := [], body := [] } (some ())
    (fun _ => true) rfl

/-- Filtering a dispatch log for an identity no snapshot member carries
yields nothing: only snapshot members are ever invoked. -/
theorem dispatch_filter_eq_nil (hres : SubId → Bool) (T : String)
    (m : Message) (snap : List Subscription) (i : SubId)
    (hi : ∀ s ∈ snap, s.id ≠ i) :
    (dispatch hres T m snap).filter (fun e => e.1 == i) = [] := by
  rw [List.filter_eq_nil_iff]
  intro e he
  unfold dispatch at he
  obtain ⟨s, hsmem, heq⟩ := List.mem_map.mp he
  rw [← heq]
  simpa using hi s hsmem

/-- C1: after `Subscribe(T, h)` returns on a well-formed broker, a
subsequent `Publish(T, m)` succeeds and invokes the new handler exactly
once — the invocation log filtered to the new subscription's identity is
exactly one entry — with an Event whose Topic is `T` and whose Message is
`m` by value. -/
theorem claim_C1 (st : BrokerState) (T : String) (hd : Option Unit)
    (m : Message) (hres : SubId → Bool) (sub : Subscription)
    (st' : BrokerState) (hwf : st.wf)
    (hs : subscribe st T hd = .ok (sub, st')) :
    ∃ log, publish hres st' T (some m) = .ok log ∧
      log.filter (fun e => e.1 == sub.id) =
        [(sub.id, { topic := T, message := m }, hres sub.id)] := by
  obtain ⟨hcl, hT, hsubeq, hst'⟩ := subscribe_ok hs
  have hcl' : st'.closed = false := by rw [hst']; exact hcl
  have hreg' : st'.registry = st.registry ++ [sub] := by rw [hst']
  have hsnap : snapshot st' T = snapshot st T ++ [sub] := by
    unfold snapshot
    rw [hreg', List.filter_append]
    subst hsubeq
    simp
  have hid : ∀ s ∈ snapshot st T, s.id ≠ sub.id := by
    intro s hsmem
    have hmem : s ∈ st.registry := List.mem_of_mem_filter hsmem
    have hlt := hwf.2 s hmem
    rw [hsubeq]
    exact Nat.ne_of_lt hlt
  refine ⟨dispatch hres T m (snapshot st' T), ?_, ?_⟩
  · unfold publish
    rw [hcl']
    simp [hT]
  · rw [hsnap]
    have happ : dispatch hres T m (snapshot st T ++ [sub]) =
        dispatch hres T m (snapshot st T) ++ dispatch hres T m [sub] := by
      simp [dispatch]
    rw [happ, List.filter_append,
      dispatch_filter_eq_nil hres T m (snapshot st T) sub.id hid]
    simp [dispatch]

/-- Witness for C1 at a concrete input: subscribing to `"test"` on the
fresh broker and publishing a message delivers it exactly once to the new
subscription. -/
theorem claim_C1_witness :
    ∃ log, publish (fun _ => true)
        { closed := false, nextId := 1, registry := [{ id := 0, topic := "test" }] }
        "test" (some { header := [("type", "person")], body := [1, 2] }) = .ok log ∧
      log.filter (fun e => e.1 == 0) =
        [(0, { topic := "test",
               message := { header := [("type", "person")], body := [1, 2] } },
          true)] :=
  claim_C1 newBroker "test" (some ())
    { header := [("type", "person")], body := [1, 2] } (fun _ => true)
    { id := 0, topic := "test" }
    { closed := false, nextId := 1, registry := [{ id := 0, topic := "test" }] }
    (by constructor <;> simp [newBroker]) rfl

/-- C2: with two distinct subscribers in the snapshot of a publish, one
handler's failure neither prevents the other handler's invocation nor shows
up in the publish result: the publish still returns success, the failing
subscriber is invoked (with outcome `false`), and so is the other one. -/
theorem claim_C2 (st : BrokerState) (T : String) (m : Message)
    (hres : SubId → Bool) (s1 s2 : Subscription)
    (hopen : st.closed = false) (hT : T ≠ "")
    (h1 : s1 ∈ snapshot st T) (h2 : s2 ∈ snapshot st T) (_hne : s1 ≠ s2)
    (hfail : hres s1.id = false) :
    ∃ log, publish hres st T (some m) = .ok log ∧
      (s1.id, ({ topic := T, message := m } : Event), false) ∈ log ∧
      (s2.id, ({ topic := T, message := m } : Event), hres s2.id) ∈ log := by
  refine ⟨dispatch hres T m (snapshot st T), ?_, ?_, ?_⟩
  · unfold publish
    rw [hopen]
    simp [hT]
  · unfold dispatch
    exact List.mem_map.mpr ⟨s1, h1, by simp [hfail]⟩
  · unfold dispatch
    exact List.mem_map.mpr ⟨s2, h2, rfl⟩

/-- Witness for C2 at a concrete input: two subscribers on `"t"`, the first
handler failing; the publish succeeds and both are invoked. -/
theorem claim_C2_witness :
    ∃ log, publish (fun i => i != 0)
        { closed := false, nextId := 2,
          registry := [{ id := 0, topic := "t" }, { id := 1, topic := "t" }] }
        "t" (some { header := [], body := [] }) = .ok log ∧
      (0, ({ topic := "t", message := { header := [], body := [] } } : Event),
        false) ∈ log ∧
      (1, ({ topic := "t", message := { header := [], body := [] } } : Event),
        true) ∈ log :=
  claim_C2
    { closed := false, nextId := 2,
      registry := [{ id := 0, topic := "t" }, { id := 1, topic := "t" }] }
    "t" { header := [], body := [] } (fun i => i != 0)
    { id := 0, topic := "t" } { id := 1, topic := "t" }
    rfl (by decide) (by decide) (by decide) (by decide) rfl

/-- An identity below the fresh-id counter and absent from the registry
stays below the counter and absent under any single further operation: a
fresh subscribe allocates a strictly larger identity, unsubscribe only
removes, close does not touch the registry. -/
theorem removed_stays_removed_op (st : BrokerState) (i : SubId) (op : Op)
    (hlt : i < st.nextId) (hout : ∀ s ∈ st.registry, s.id ≠ i) :
    i < (applyOp st op).nextId ∧
      ∀ s ∈ (applyOp st op).registry, s.id ≠ i := by
  cases op with
  | subscribe T hd =>
    simp only [applyOp]
    cases hsub : subscribe st T hd with
    | error e => exact ⟨hlt, hout⟩
    | ok p =>
      obtain ⟨sub, st'⟩ := p
      obtain ⟨hcl, hT, hsubeq, hst'⟩ := subscribe_ok hsub
      subst hst'
      refine ⟨Nat.lt_succ_of_lt hlt, ?_⟩
      intro s hsmem
      rcases List.mem_append.mp hsmem with h | h
      · exact hout s h
      · rw [List.mem_singleton] at h
        subst h
        rw [hsubeq]
        exact Nat.ne_of_gt hlt
  | unsubscribe j =>
    simp only [applyOp]
    refine ⟨hlt, ?_⟩
    intro s hs
    simp only [unsubscribe] at hs
    exact hout s (List.mem_of_mem_filter hs)
  | close =>
    simp only [applyOp]
    exact ⟨hlt, hout⟩

/-- An identity below the fresh-id counter and absent from the registry is
never resurrected by any sequence of further operations. -/
theorem removed_stays_removed (st : BrokerState) (i : SubId) (ops : List Op)
    (hlt : i < st.nextId) (hout : ∀ s ∈ st.registry, s.id ≠ i) :
    ∀ s ∈ (applyOps st ops).registry, s.id ≠ i := by
  induction ops generalizing st with
  | nil => exact hout
  | cons op ops ih =>
    obtain ⟨hlt', hout'⟩ := removed_stays_removed_op st i op hlt hout
    exact ih _ hlt' hout'

/-- Every invocation a successful publish performs belongs to a registry
member: the snapshot is drawn from the registry. -/
theorem publish_ok_mem {hres : SubId → Bool} {st : BrokerState} {T : String}
    {msg : Option Message} {log : List (SubId × Event × Bool)}
    (h : publish hres st T msg = .ok log) :
    ∀ e ∈ log, ∃ s ∈ st.registry, e.1 = s.id := by
  unfold publish at h
  split at h
  · exact absurd h (by simp)
  · split at h
    · exact absurd h (by simp)
    · split at h
      · exact absurd h (by simp)
      · injection h with h
        subst h
        intro e he
        unfold dispatch at he
        obtain ⟨s, hsmem, heq⟩ := List.mem_map.mp he
        exact ⟨s, List.mem_of_mem_filter hsmem, by rw [← heq]⟩

/-- C4: once `Unsubscribe` on a subscription's identity has returned, no
publish that starts afterwards — after any further sequence of broker
operations — ever invokes that subscription again: every entry of any later
successful publish's invocation log carries a different identity.  (The
hypothesis `i < st.nextId` holds for every identity the broker ever handed
out.) -/
theorem claim_C4 (st : BrokerState) (i : SubId) (ops : List Op) (T : String)
    (msg : Option Message) (hres : SubId → Bool)
    (log : List (SubId × Event × Bool)) (hlt : i < st.nextId)
    (hpub : publish hres (applyOps (unsubscribe st i).2 ops) T msg
      = .ok log) :
    ∀ e ∈ log, e.1 ≠ i := by
  have hout : ∀ s ∈ (unsubscribe st i).2.registry, s.id ≠ i := by
    intro s hs
    simp only [unsubscribe, List.mem_filter] at hs
    simpa using hs.2
  have hreg := removed_stays_removed (unsubscribe st i).2 i ops hlt hout
  intro e he
  obtain ⟨s, hsmem, heq⟩ := publish_ok_mem hpub e he
  rw [heq]
  exact hreg s hsmem

/-- Witness for C4 at a concrete input: unsubscribe identity 0, then a new
subscription (identity 1) arrives and a publish is delivered only to it —
no log entry carries identity 0. -/
theorem claim_C4_witness :
    (0 : Nat) < 1 ∧
      ∀ e ∈ [((1 : SubId),
          ({ topic := "t", message := { header := [], body := [] } } : Event),
          true)], e.1 ≠ 0 :=
  ⟨by decide,
    claim_C4 { closed := false, nextId := 1, registry := [{ id := 0, topic := "t" }] }
      0 [.subscribe "t" (some ())] "t" (some { header := [], body := [] })
      (fun _ => true) _ (by decide) rfl⟩

/-- A successful subscribe preserves well-formedness: the fresh identity is
distinct from every live one and the counter still bounds the registry. -/
theorem wf_subscribe {st : BrokerState} {T : String} {hd : Option Unit}
    {sub : Subscription} {st' : BrokerState} (hwf : st.wf)
    (hs : subscribe st T hd = .ok (sub, st')) : st'.wf := by
  obtain ⟨hcl, hT, hsubeq, hst'⟩ := subscribe_ok hs
  subst hst'
  subst hsubeq
  constructor
  · simp only [List.map_append, List.map_cons, List.map_nil]
    rw [List.nodup_append]
    refine ⟨hwf.1, List.nodup_singleton _, ?_⟩
    intro a ha hb
    rw [List.mem_singleton] at hb
    obtain ⟨s, hsmem, rfl⟩ := List.mem_map.mp ha
    have := hwf.2 s hsmem
    rw [hb] at this
    exact absurd this (lt_irrefl _)
  · intro s hsmem
    rcases List.mem_append.mp hsmem with h | h
    · exact Nat.lt_succ_of_lt (hwf.2 s h)
    · rw [List.mem_singleton] at h
      subst h
      exact Nat.lt_succ_self _

/-- Unsubscribe preserves well-formedness: removal keeps distinctness and
the counter bound. -/
theorem wf_unsubscribe (st : BrokerState) (i : SubId) (hwf : st.wf) :
    (unsubscribe st i).2.wf := by
  constructor
  · exact hwf.1.sublist ((List.filter_sublist _).map _)
  · intro s hs
    exact hwf.2 s (List.mem_of_mem_filter hs)

/-- C8: registry mutation keeps the registry well-formed — a successful
subscribe and any unsubscribe preserve well-formedness (the registry is
never corrupted; per spec §5 the registry's lock makes each mutation and
each snapshot atomic, which is how this sequential model renders the
concurrency) — and a subscribe that completes during an in-flight publish
is not delivered to by that publish: its snapshot was taken before
registration, so no entry it dispatches carries the new identity. -/
theorem claim_C8 (st : BrokerState) (T : String) (hd : Option Unit)
    (m : Message) (hres : SubId → Bool) (sub : Subscription)
    (st' : BrokerState) (hwf : st.wf)
    (hs : subscribe st T hd = .ok (sub, st')) :
    st'.wf ∧ (∀ i, (unsubscribe st' i).2.wf) ∧
      ∀ e ∈ dispatch hres T m (snapshot st T), e.1 ≠ sub.id := by
  have hwf' := wf_subscribe hwf hs
  refine ⟨hwf', fun i => wf_unsubscribe st' i hwf', ?_⟩
  obtain ⟨hcl, hT, hsubeq, hst'⟩ := subscribe_ok hs
  intro e he
  unfold dispatch at he
  obtain ⟨s, hsmem, heq⟩ := List.mem_map.mp he
  rw [← heq]
  have hlt := hwf.2 s (List.mem_of_mem_filter hsmem)
  rw [hsubeq]
  exact Nat.ne_of_lt hlt

/-- Witness for C8 at a concrete input: subscribing to `"t"` on the fresh
broker yields a well-formed state, any unsubscribe keeps it well-formed,
and a publish whose snapshot predates the registration delivers nothing to
the new identity. -/
theorem claim_C8_witness :
    ({ closed := false, nextId := 1,
       registry := [{ id := 0, topic := "t" }] } : BrokerState).wf ∧
      (∀ i,
        (unsubscribe
          ({ closed := false, nextId := 1,
             registry := [{ id := 0, topic := "t" }] } : BrokerState) i).2.wf) ∧
      ∀ e ∈ dispatch (fun _ => true) "t" { header := [], body := [] }
          (snapshot newBroker "t"), e.1 ≠ 0 :=
  claim_C8 newBroker "t" (some ()) { header := [], body := [] }
    (fun _ => true) { id := 0, topic := "t" }
    { closed := false, nextId := 1, registry := [{ id := 0, topic := "t" }] }
    (by constructor <;> simp [newBroker]) rfl

end Micro
